import Mathlib

/-!
# MindMirror backend — verification of the reflection-analysis pipeline

Shallow embedding of the MindMirror backend (Express routes in
`src/routes/analysis.js` and the analysis client in `src/server.js`, which
holds both the server bootstrap and the `gemini.js` module).  The document
store (Firestore) is modelled as an association list of per-user documents,
each owning an association list of reflection documents; external analysis
calls are modelled by passing their settled outcome as an explicit argument.
All machine-level JS behaviours that the routes rely on (string falsiness,
`||` defaulting, `trim`, global `replace`, `indexOf`/`lastIndexOf`,
`Array.prototype.sort` stability, object insertion order for non-index keys)
are embedded explicitly.
-/

namespace MindMirror

/-- JS `a || b` for strings: the empty string is falsy. -/
def jsOr (a b : String) : String := if a = "" then b else a

/-- JS `a || b` where `a` is a possibly-absent string field
(`undefined` and `""` are both falsy). -/
def jsOrOpt (a : Option String) (b : String) : String :=
  match a with
  | none => b
  | some s => if s = "" then b else s

/-- JS string whitespace (ASCII subset relevant to `String.prototype.trim`). -/
def jsWs (c : Char) : Bool :=
  c = ' ' || c = '\t' || c = '\n' || c = '\r' || c = '\x0b' || c = '\x0c'

/-- `String.prototype.trim` on a character list. -/
def trimL (l : List Char) : List Char :=
  (l.dropWhile jsWs).reverse.dropWhile jsWs |>.reverse

/-- Contiguous substring search on character lists. -/
def isInfixL (pat l : List Char) : Bool :=
  match l with
  | [] => pat.isEmpty
  | _ :: rest => pat.isPrefixOf l || isInfixL pat rest

/-- `String.prototype.includes(sub)` — substring containment. -/
def jsIncludes (s sub : String) : Bool :=
  isInfixL sub.toList s.toList

/-- First-match association-list lookup (document lookup by id). -/
def alookup {α : Type} (m : List (String × α)) (k : String) : Option α :=
  match m with
  | [] => none
  | (k', v) :: rest => if k' = k then some v else alookup rest k

/-- Document write: overwrite in place when the key exists, else append. -/
def aset {α : Type} (m : List (String × α)) (k : String) (v : α) :
    List (String × α) :=
  match m with
  | [] => [(k, v)]
  | (k', v') :: rest =>
      if k' = k then (k, v) :: rest else (k', v') :: aset rest k v

end MindMirror

namespace MindMirror

/-- A reflection document under `users/{uid}/reflections/{docId}`.
Optional fields model Firestore fields that a given write may not set. -/
structure Reflection where
  date : String
  transcript : Option String
  createdAt : Nat
  analysisStatus : Option String
  inputType : Option String
  primaryEmotion : Option String
  secondaryEmotion : Option String
  theme : Option String
  emotionalIntensity : Option String
  dailyInsight : Option String
  analysisError : Option String
  deriving Repr, DecidableEq

/-- The aggregate weekly analysis payload (shape produced both by the
analysis client and by the synthetic fallback in `/analyze-weekly`). -/
structure WeeklyData where
  dominantEmotions : List String
  dominantThemes : List String
  emotionalPattern : String
  weeklyInsight : String
  reflectiveQuestion : String
  deriving Repr, DecidableEq

/-- The `weeklyAnalysisCache` field of a user document. -/
structure CacheEntry where
  timestamp : Nat
  reflectionCount : Nat
  analysis : WeeklyData
  deriving Repr, DecidableEq

/-- One entry of the `apiLogs` array kept by `incrementAPICount`. -/
structure LogEntry where
  timestamp : Nat
  operation : String
  details : String
  deriving Repr, DecidableEq

/-- A user document (`users/{uid}`), including the `reflections`
sub-collection in insertion order. -/
structure UserDoc where
  name : Option String
  email : Option String
  lastActive : Option Nat
  weeklyAnalysisCache : Option CacheEntry
  apiRequestCount : Nat
  apiLogs : List LogEntry
  apiUsageByDate : List (String × Nat)
  apiUsageByType : List (String × Nat)
  apiUsageLastUpdated : Option Nat
  reflections : List (String × Reflection)
  deriving Repr, DecidableEq

/-- A fresh user document, created implicitly by a merge-write to a
non-existent `users/{uid}`. -/
def UserDoc.empty : UserDoc :=
  { name := none, email := none, lastActive := none,
    weeklyAnalysisCache := none, apiRequestCount := 0, apiLogs := [],
    apiUsageByDate := [], apiUsageByType := [], apiUsageLastUpdated := none,
    reflections := [] }

/-- The document store: `users` collection keyed by user id. -/
abbrev Store := List (String × UserDoc)

/-- Read a user document (point read; absent documents read as `none`). -/
def getUser (st : Store) (uid : String) : Option UserDoc :=
  alookup st uid

/-- Merge-write a user document: read-modify-write of the named fields
only, creating the document when absent (Firestore `set(..., {merge:true})`,
where each call site updates a fixed field set). -/
def mergeUser (st : Store) (uid : String) (f : UserDoc → UserDoc) : Store :=
  aset st uid (f ((getUser st uid).getD UserDoc.empty))

/-- Stable insert for a descending sort keyed by `key`: the new element
goes after every existing element with a strictly larger key and before
the first element whose key is `≤` its own.  This is the placement a
stable `Array.prototype.sort` with comparator `(a, b) => key b - key a`
gives to elements taken in input order. -/
def insDescBy {α : Type} (key : α → Nat) (x : α) : List α → List α
  | [] => [x]
  | y :: ys => if key x < key y then y :: insDescBy key x ys else x :: y :: ys

/-- Stable descending sort by `key` (JS stable sort with comparator
`(a, b) => key b - key a`). -/
def sortDescBy {α : Type} (key : α → Nat) : List α → List α
  | [] => []
  | x :: xs => insDescBy key x (sortDescBy key xs)

/-- One step of occurrence counting: `counts[e] = (counts[e] || 0) + 1`
on a JS object whose (non-index) keys iterate in insertion order. -/
def bump (acc : List (String × Nat)) (e : String) : List (String × Nat) :=
  match acc with
  | [] => [(e, 1)]
  | (k, n) :: rest => if k = e then (k, n + 1) :: rest else (k, n) :: bump rest e

/-- Occurrence counts of each distinct string, keys in first-encounter
order (`emotions.forEach(e => counts[e] = (counts[e] || 0) + 1)`). -/
def countOcc (l : List String) : List (String × Nat) := l.foldl bump []

/-- The keys of `countOcc` in the order they are created: each string's
first occurrence, in input order. -/
def firstOccs (l : List String) : List String :=
  l.foldl (fun acc e => if acc.contains e then acc else acc ++ [e]) []

/-- The synthetic fallback generator inlined in the `catch` branch of
`POST /analyze-weekly` (`src/routes/analysis.js` lines 245-281): per-field
defaults, occurrence counts, stable descending sort, top 2, fixed-shape
aggregate. -/
def syntheticFallback (reflections : List Reflection) : WeeklyData :=
  let emotions :=
    (reflections.map (fun r => jsOrOpt r.primaryEmotion "neutral")).filter
      (fun e => e ≠ "")
  let themes :=
    (reflections.map (fun r => jsOrOpt r.theme "self")).filter
      (fun t => t ≠ "")
  let emotionCounts := countOcc emotions
  let themeCounts := countOcc themes
  let sortedEmotions := ((sortDescBy Prod.snd emotionCounts).take 2).map Prod.fst
  let sortedThemes := ((sortDescBy Prod.snd themeCounts).take 2).map Prod.fst
  let joinedThemes := String.intercalate " and " sortedThemes
  { dominantEmotions := if sortedEmotions.isEmpty then ["neutral"] else sortedEmotions,
    dominantThemes := if sortedThemes.isEmpty then ["self"] else sortedThemes,
    emotionalPattern :=
      "Your reflections show a consistent pattern of self-awareness.",
    weeklyInsight :=
      "This week you\u0027ve reflected " ++ toString reflections.length ++
        " times, exploring themes of " ++ jsOr joinedThemes "personal growth" ++ ".",
    reflectiveQuestion :=
      "What would you like to explore more deeply in your next reflection?" }

end MindMirror

namespace MindMirror

/-! ## The analysis client (`callGemini` in `src/server.js`)

`callGemini` receives free-form model text, strips code fences, slices the
first `{` .. last `}` range, and runs `JSON.parse` on the result.  We embed
`JSON.parse` as a fuel-based recursive-descent parser whose failure kinds
mirror the V8 error messages the client inspects
(`err.message.includes('Unterminated') || err.message.includes('Unexpected end')`). -/

/-- JSON values as produced by `JSON.parse`; number lexemes are kept
verbatim. -/
inductive Json where
  | jnull
  | jbool (b : Bool)
  | jnum (lexeme : String)
  | jstr (s : String)
  | jarr (elems : List Json)
  | jobj (members : List (String × Json))
  deriving Repr, BEq

/-- `JSON.parse` failure kinds, keyed by the V8 message each produces:
`unexpectedEnd` — "Unexpected end of JSON input" (input exhausted where a
token was expected); `unterminatedStr` — "Unterminated string in JSON"
(input exhausted inside a string literal); `unexpectedToken` — "Unexpected
token … in JSON". -/
inductive JErr where
  | unexpectedEnd
  | unterminatedStr
  | unexpectedToken (c : Char)
  deriving Repr, DecidableEq

/-- Whitespace accepted between JSON tokens by `JSON.parse`. -/
def jsonWs (c : Char) : Bool := c = ' ' || c = '\t' || c = '\n' || c = '\r'

/-- Value of one hex digit. -/
def hexVal (c : Char) : Option Nat :=
  if '0' ≤ c ∧ c ≤ '9' then some (c.toNat - '0'.toNat)
  else if 'a' ≤ c ∧ c ≤ 'f' then some (c.toNat - 'a'.toNat + 10)
  else if 'A' ≤ c ∧ c ≤ 'F' then some (c.toNat - 'A'.toNat + 10)
  else none

/-- Single-character JSON string escapes. -/
def escChar (e : Char) : Option Char :=
  if e = '"' then some '"'
  else if e = '\\' then some '\\'
  else if e = '/' then some '/'
  else if e = 'b' then some '\x08'
  else if e = 'f' then some '\x0c'
  else if e = 'n' then some '\n'
  else if e = 'r' then some '\r'
  else if e = 't' then some '\t'
  else none

/-- Parse the body of a JSON string literal (after the opening quote).
Exhausting the input inside the literal is an unterminated string. -/
def pString : Nat → List Char → Except JErr (List Char × List Char)
  | 0, _ => .error .unterminatedStr
  | _, [] => .error .unterminatedStr
  | fuel + 1, c :: rest =>
      if c = '"' then .ok ([], rest)
      else if c = '\\' then
        match rest with
        | [] => .error .unterminatedStr
        | e :: rest2 =>
            if e = 'u' then
              match rest2 with
              | h1 :: h2 :: h3 :: h4 :: rest3 =>
                  match hexVal h1, hexVal h2, hexVal h3, hexVal h4 with
                  | some a, some b, some x, some y =>
                      let code := ((a * 16 + b) * 16 + x) * 16 + y
                      (pString fuel rest3).map
                        (fun p => (Char.ofNat code :: p.1, p.2))
                  | _, _, _, _ => .error (.unexpectedToken e)
              | _ => .error .unterminatedStr
            else
              match escChar e with
              | some d => (pString fuel rest2).map (fun p => (d :: p.1, p.2))
              | none => .error (.unexpectedToken e)
      else if c.toNat < 0x20 then .error (.unexpectedToken c)
      else (pString fuel rest).map (fun p => (c :: p.1, p.2))

/-- Optional exponent part of a JSON number. -/
def expPart (l : List Char) : Except JErr (List Char × List Char) :=
  match l with
  | [] => .ok ([], [])
  | c :: r =>
      if c = 'e' ∨ c = 'E' then
        let (sgn, r1) :=
          match r with
          | s :: r' => if s = '+' ∨ s = '-' then ([s], r') else (([] : List Char), r)
          | [] => ([], r)
        match r1 with
        | [] => .error .unexpectedEnd
        | d :: _ =>
            if d.isDigit then
              .ok (c :: sgn ++ r1.takeWhile Char.isDigit, r1.dropWhile Char.isDigit)
            else .error (.unexpectedToken d)
      else .ok ([], l)

/-- Optional fraction then exponent part of a JSON number. -/
def fracExp (l : List Char) : Except JErr (List Char × List Char) :=
  match l with
  | '.' :: r =>
      (match r with
       | [] => .error .unexpectedEnd
       | d :: _ =>
           if d.isDigit then
             match expPart (r.dropWhile Char.isDigit) with
             | .error e => .error e
             | .ok (ep, r3) => .ok ('.' :: r.takeWhile Char.isDigit ++ ep, r3)
           else .error (.unexpectedToken d))
  | _ => expPart l

/-- Parse a JSON number lexeme; the head of the input is `-` or a digit. -/
def pNumber (l : List Char) : Except JErr (List Char × List Char) :=
  let (neg, l1) :=
    match l with
    | '-' :: r => ((['-'] : List Char), r)
    | _ => ([], l)
  match l1 with
  | [] => .error .unexpectedEnd
  | c :: _ =>
      if c.isDigit then
        let (ip, l2) :=
          if c = '0' then ((['0'] : List Char), l1.tail)
          else (l1.takeWhile Char.isDigit, l1.dropWhile Char.isDigit)
        match fracExp l2 with
        | .error e => .error e
        | .ok (fe, l3) => .ok (neg ++ ip ++ fe, l3)
      else .error (.unexpectedToken c)

/-- Match the remaining characters of a keyword (`true`/`false`/`null`). -/
def pLit (kw : List Char) (v : Json) (l : List Char) :
    Except JErr (Json × List Char) :=
  match kw, l with
  | [], rest => .ok (v, rest)
  | _ :: _, [] => .error .unexpectedEnd
  | k :: ks, c :: cs => if c = k then pLit ks v cs else .error (.unexpectedToken c)

mutual

/-- Parse one JSON value (fuel-based recursive descent). -/
def pValue : Nat → List Char → Except JErr (Json × List Char)
  | 0, _ => .error .unexpectedEnd
  | fuel + 1, l =>
      match l.dropWhile jsonWs with
      | [] => .error .unexpectedEnd
      | c :: rest =>
          if c = '{' then
            match rest.dropWhile jsonWs with
            | '}' :: rem => .ok (.jobj [], rem)
            | _ => (pMembers fuel rest).map (fun p => (.jobj p.1, p.2))
          else if c = '[' then
            match rest.dropWhile jsonWs with
            | ']' :: rem => .ok (.jarr [], rem)
            | _ => (pElems fuel rest).map (fun p => (.jarr p.1, p.2))
          else if c = '"' then
            (pString (rest.length + 1) rest).map
              (fun p => (.jstr (String.mk p.1), p.2))
          else if c = 't' then pLit ['r', 'u', 'e'] (.jbool true) rest
          else if c = 'f' then pLit ['a', 'l', 's', 'e'] (.jbool false) rest
          else if c = 'n' then pLit ['u', 'l', 'l'] .jnull rest
          else if c = '-' ∨ c.isDigit then
            (pNumber (c :: rest)).map (fun p => (.jnum (String.mk p.1), p.2))
          else .error (.unexpectedToken c)

/-- Parse the members of a JSON object (after the opening brace). -/
def pMembers : Nat → List Char → Except JErr (List (String × Json) × List Char)
  | 0, _ => .error .unexpectedEnd
  | fuel + 1, l =>
      match l.dropWhile jsonWs with
      | [] => .error .unexpectedEnd
      | c :: rest =>
          if c = '"' then
            match pString (rest.length + 1) rest with
            | .error e => .error e
            | .ok (k, rem) =>
                match rem.dropWhile jsonWs with
                | [] => .error .unexpectedEnd
                | c2 :: rem2 =>
                    if c2 = ':' then
                      match pValue fuel rem2 with
                      | .error e => .error e
                      | .ok (v, rem3) =>
                          match rem3.dropWhile jsonWs with
                          | [] => .error .unexpectedEnd
                          | c3 :: rem4 =>
                              if c3 = ',' then
                                (pMembers fuel rem4).map
                                  (fun p => ((String.mk k, v) :: p.1, p.2))
                              else if c3 = '}' then .ok ([(String.mk k, v)], rem4)
                              else .error (.unexpectedToken c3)
                    else .error (.unexpectedToken c2)
          else .error (.unexpectedToken c)

/-- Parse the elements of a JSON array (after the opening bracket). -/
def pElems : Nat → List Char → Except JErr (List Json × List Char)
  | 0, _ => .error .unexpectedEnd
  | fuel + 1, l =>
      match pValue fuel l with
      | .error e => .error e
      | .ok (v, rem) =>
          match rem.dropWhile jsonWs with
          | [] => .error .unexpectedEnd
          | c :: rem2 =>
              if c = ',' then (pElems fuel rem2).map (fun p => (v :: p.1, p.2))
              else if c = ']' then .ok ([v], rem2)
              else .error (.unexpectedToken c)

end

/-- `JSON.parse`: parse one value, then require only whitespace to follow. -/
def parseJson (s : String) : Except JErr Json :=
  let cs := s.toList
  match pValue (2 * cs.length + 2) cs with
  | .error e => .error e
  | .ok (v, rem) =>
      match rem.dropWhile jsonWs with
      | [] => .ok v
      | c :: _ => .error (.unexpectedToken c)

end MindMirror

namespace MindMirror

/-- Remove every occurrence of the non-empty pattern `p :: ps`, scanning
left to right and resuming after each removal (JS
`String.prototype.replace` with a global pattern and empty replacement).
The fuel is at least the input length, so it never runs out. -/
def removeAllF : Nat → Char → List Char → List Char → List Char
  | 0, _, _, l => l
  | _, _, _, [] => []
  | fuel + 1, p, ps, c :: rest =>
      if (p :: ps).isPrefixOf (c :: rest) then
        removeAllF fuel p ps (rest.drop ps.length)
      else c :: removeAllF fuel p ps rest

/-- `s.replace(pat, '')` with a global pattern, on character lists. -/
def removeAll (pat : String) (l : List Char) : List Char :=
  match pat.toList with
  | [] => l
  | p :: ps => removeAllF (l.length + 1) p ps l

/-- Index of the first occurrence of `c` (JS `indexOf`, `none` for -1). -/
def firstIdx (c : Char) : List Char → Option Nat
  | [] => none
  | x :: xs => if x = c then some 0 else (firstIdx c xs).map (· + 1)

/-- Index of the last occurrence of `c` (JS `lastIndexOf`, `none` for -1). -/
def lastIdx (c : Char) (l : List Char) : Option Nat :=
  match firstIdx c l.reverse with
  | none => none
  | some k => some (l.length - 1 - k)

/-- The brace-slicing step of the `callGemini` extraction pipeline
(`src/server.js` lines 205-209): slice from the first `{` to the last `}`
when both exist in that order, otherwise leave the text unchanged. -/
def braceSlice (s1 : List Char) : List Char :=
  match firstIdx '{' s1, lastIdx '}' s1 with
  | some fb, some lb =>
      if fb < lb then (s1.drop fb).take (lb + 1 - fb) else s1
  | some _, none => s1
  | none, _ => s1

/-- The marker-stripping step of the extraction pipeline (`src/server.js`
lines 199-202): trim, drop all ```` ```json ```` then all ```` ``` ````
markers, trim again. -/
def stripFences (text : String) : List Char :=
  trimL (removeAll "```" (removeAll "```json" (trimL text.toList)))

/-- The full extraction pipeline of `callGemini`: strip fences, then slice
braces. -/
def extractJsonStr (text : String) : List Char :=
  braceSlice (stripFences text)

/-- The two parse-failure errors `callGemini` can throw. -/
inductive GeminiError where
  | incompleteResponse
  | malformedResponse
  deriving Repr, DecidableEq

/-- The `message` of each thrown error (`src/server.js` lines 224, 226). -/
def GeminiError.message : GeminiError → String
  | .incompleteResponse => "Gemini response was incomplete - try again"
  | .malformedResponse => "Invalid AI response format - could not parse JSON"

/-- The truncation test
`err.message.includes('Unterminated') || err.message.includes('Unexpected end')`,
evaluated on the V8 message of each parse-failure kind: "Unexpected end of
JSON input" and "Unterminated string in JSON …" match, "Unexpected token …
in JSON …" does not. -/
def JErr.isTruncation : JErr → Bool
  | .unexpectedEnd => true
  | .unterminatedStr => true
  | .unexpectedToken _ => false

/-- Classify a parse failure as the error `callGemini` throws. -/
def classifyJErr (e : JErr) : GeminiError :=
  if e.isTruncation then .incompleteResponse else .malformedResponse

/-- `callGemini` as a function of the raw model response text: extraction
followed by `JSON.parse`, parse failures classified. -/
def callGemini (text : String) : Except GeminiError Json :=
  match parseJson (String.mk (extractJsonStr text)) with
  | .ok j => .ok j
  | .error e => .error (classifyJErr e)

/-- `callGemini` seen against the stream of responses successive external
calls would yield: the body makes exactly one `generateContent` call (no
retry loop), so exactly the head response is consumed and the result is a
function of it alone. -/
def callGeminiStream (responses : List String) :
    Except GeminiError Json × List String :=
  match responses with
  | [] => (.error .malformedResponse, [])
  | r :: rest => (callGemini r, rest)

/-- The coarse operation category of `incrementAPICount`
(`operation.includes('text') ? 'text' : …`). -/
def opCategory (operation : String) : String :=
  if jsIncludes operation "text" then "text"
  else if jsIncludes operation "voice" then "voice"
  else if jsIncludes operation "weekly" then "weekly"
  else "other"

/-- `m[k] = (m[k] || 0) + 1` under a JS object spread: existing keys keep
their position, new keys are appended. -/
def bumpCounter (m : List (String × Nat)) (k : String) : List (String × Nat) :=
  aset m k ((alookup m k).getD 0 + 1)

/-- The body of `incrementAPICount` (`src/server.js` lines 146-179) without
its `try`/`catch`: read the user document, bump the counter, append one log
entry while keeping only the last 100, bump the by-day and by-category
tallies.  `storeFails` models the document store throwing on the read or
the write. -/
def incrementAPICountBody (st : Store) (uid operation details today : String)
    (now : Nat) (storeFails : Bool) : Except String Store :=
  if storeFails then .error "store unavailable"
  else
    let u := (getUser st uid).getD UserDoc.empty
    let updatedLogs :=
      (u.apiLogs.drop (u.apiLogs.length - 99)) ++ [⟨now, operation, details⟩]
    .ok (mergeUser st uid (fun v =>
      { v with
        apiRequestCount := u.apiRequestCount + 1,
        apiLogs := updatedLogs,
        apiUsageByDate := bumpCounter u.apiUsageByDate today,
        apiUsageByType := bumpCounter u.apiUsageByType (opCategory operation),
        apiUsageLastUpdated := some now }))

/-- `incrementAPICount` (`src/server.js` lines 142-183): early return on a
missing user id, then the body under `try`/`catch` — any failure is logged
and swallowed, so the caller always receives a store and never an error. -/
def incrementAPICount (st : Store) (uid operation details today : String)
    (now : Nat) (storeFails : Bool) : Store :=
  if uid = "" then st
  else
    match incrementAPICountBody st uid operation details today now storeFails with
    | .ok st' => st'
    | .error _ => st

/-- Observable steps of one `callGemini` invocation, in execution order. -/
inductive ClientEvent where
  | recorderUpdate
  | externalCall
  deriving Repr, DecidableEq

/-- `callGemini` with its side effects (`src/server.js` lines 188-196): when
a user identity is given, the usage recorder runs (and is awaited) before
the external call; the analysis result never depends on the recorder. -/
def callGeminiFull (st : Store) (userId : Option String)
    (operation details today : String) (now : Nat) (storeFails : Bool)
    (responseText : String) :
    Except GeminiError Json × Store × List ClientEvent :=
  match userId with
  | some uid =>
      let st1 := incrementAPICount st uid operation details today now storeFails
      (callGemini responseText, st1, [.recorderUpdate, .externalCall])
  | none => (callGemini responseText, st, [.externalCall])

end MindMirror

namespace MindMirror

/-! ## Route handlers (`src/routes/analysis.js`)

Each handler is a function of the store, the request fields, the settled
outcome of any external analysis call, and the request-time clock values
(`now` in ms, the derived date string and `HH-MM-SS` time string).  The
returned value is the JSON response plus the store after the handler's own
synchronous writes; background work is a separate function that is not run
by the handler. -/

/-- Outcome of an awaited internal analysis helper: these helpers catch all
their errors and resolve with `{success:true, data}` or
`{success:false, error}` — they never reject. -/
inductive GOutcome (α : Type) where
  | ok (d : α)
  | fail (e : String)
  deriving Repr, DecidableEq

/-- The analysis fields the background task reads off the parsed client
response and writes into the reflection document. -/
structure AnalysisFields where
  dailyInsight : String
  primaryEmotion : String
  secondaryEmotion : String
  emotionalIntensity : String
  theme : String
  deriving Repr, DecidableEq

/-- The payload `analyzeTextReflection` yields for `/analyze-daily`
(includes the echoed transcript). -/
structure DailyData where
  transcript : String
  dailyInsight : String
  primaryEmotion : String
  secondaryEmotion : String
  emotionalIntensity : String
  theme : String
  deriving Repr, DecidableEq

/-- Response of `POST /save-transcript`. -/
structure SaveResp where
  status : Nat
  success : Bool
  error : Option String
  reflectionId : Option String
  reflection : Option Reflection
  deriving Repr, DecidableEq

/-- Overwrite one reflection document of a user. -/
def setReflection (st : Store) (uid docId : String) (r : Reflection) : Store :=
  mergeUser st uid (fun u => { u with reflections := aset u.reflections docId r })

/-- Point read of one reflection document
(`GET /reflection-by-id/:userId/:docId`). -/
def getReflectionById (st : Store) (uid docId : String) : Option Reflection :=
  (getUser st uid).bind (fun u => alookup u.reflections docId)

/-- The synchronous part of `POST /save-transcript` (`src/routes/analysis.js`
lines 11-86): validation, profile upsert, write of the `pending` reflection,
immediate response.  The background analysis is scheduled but not awaited;
it is modelled by `saveTranscriptBackground` below. -/
def saveTranscript (st : Store) (userId userName userEmail date transcript : String)
    (now : Nat) (nowDate timeStr : String) : SaveResp × Store :=
  if userId = "" ∨ transcript = "" then
    ({ status := 400, success := false,
       error := some "userId and transcript are required",
       reflectionId := none, reflection := none }, st)
  else
    let dateStr := jsOr date nowDate
    let docId := dateStr ++ "_" ++ timeStr
    let reflectionData : Reflection :=
      { date := dateStr, transcript := some (String.mk (trimL transcript.toList)),
        createdAt := now, analysisStatus := some "pending",
        inputType := some "voice", primaryEmotion := none,
        secondaryEmotion := none, theme := none, emotionalIntensity := none,
        dailyInsight := none, analysisError := none }
    let st1 := mergeUser st userId (fun u =>
      { u with name := some (jsOr userName "Anonymous"),
               email := some (jsOr userEmail ""), lastActive := some now })
    let st2 := setReflection st1 userId docId reflectionData
    ({ status := 200, success := true, error := none,
       reflectionId := some docId, reflection := some reflectionData }, st2)

/-- `analyzeTranscriptBackground` (`src/server.js` lines 265-318): on a
successful client call, update the reflection with the analysis fields and
status `completed`; on failure, set status `failed` with the error message
(swallowing a failure of that update, which here corresponds to the
document being absent).  Returns the store and the `success` flag of the
resolved value. -/
def analyzeTranscriptBackground (st : Store) (uid docId : String)
    (svc : Except GeminiError AnalysisFields) : Store × Bool :=
  match svc with
  | .ok d =>
      match getReflectionById st uid docId with
      | some r =>
          (setReflection st uid docId
            { r with dailyInsight := some d.dailyInsight,
                     primaryEmotion := some d.primaryEmotion,
                     secondaryEmotion := some d.secondaryEmotion,
                     emotionalIntensity := some d.emotionalIntensity,
                     theme := some d.theme,
                     analysisStatus := some "completed" }, true)
      | none => (st, false)
  | .error e =>
      match getReflectionById st uid docId with
      | some r =>
          (setReflection st uid docId
            { r with analysisStatus := some "failed",
                     analysisError := some e.message }, false)
      | none => (st, false)

/-- The `.then` continuation `/save-transcript` attaches to the background
task (`src/routes/analysis.js` lines 56-68): when the resolved value has
`success = true`, clear the user's weekly cache. -/
def saveTranscriptBackground (st : Store) (uid docId : String)
    (svc : Except GeminiError AnalysisFields) : Store :=
  let r := analyzeTranscriptBackground st uid docId svc
  if r.2 then mergeUser r.1 uid (fun u => { u with weeklyAnalysisCache := none })
  else r.1

/-- Response of `POST /analyze-daily`. -/
structure DailyResp where
  status : Nat
  success : Bool
  error : Option String
  analysisId : Option String
  reflection : Option Reflection
  deriving Repr, DecidableEq

/-- `POST /analyze-daily` (`src/routes/analysis.js` lines 92-163):
validation, inline analysis call, then — only on success — profile upsert,
reflection write (with populated analysis fields and no `analysisStatus`
field) and cache invalidation.  The usage-recording side effect of the
inline client call is modelled at the client level (`callGeminiFull`). -/
def analyzeDaily (st : Store) (userId userName userEmail date textInput : String)
    (svc : GOutcome DailyData) (now : Nat) (nowDate timeStr : String) :
    DailyResp × Store :=
  if userId = "" ∨ textInput = "" then
    ({ status := 400, success := false,
       error := some "userId and textInput are required",
       analysisId := none, reflection := none }, st)
  else
    match svc with
    | .fail e =>
        ({ status := 500, success := false, error := some e,
           analysisId := none, reflection := none }, st)
    | .ok d =>
        let dateStr := jsOr date nowDate
        let docId := dateStr ++ "_" ++ timeStr
        let reflectionData : Reflection :=
          { date := dateStr, transcript := some d.transcript,
            createdAt := now, analysisStatus := none,
            inputType := some "text",
            primaryEmotion := some d.primaryEmotion,
            secondaryEmotion := some d.secondaryEmotion,
            theme := some d.theme,
            emotionalIntensity := some d.emotionalIntensity,
            dailyInsight := some d.dailyInsight, analysisError := none }
        let st1 := mergeUser st userId (fun u =>
          { u with name := some (jsOr userName "Anonymous"),
                   email := some (jsOr userEmail ""), lastActive := some now })
        let st2 := setReflection st1 userId docId reflectionData
        let st3 := mergeUser st2 userId (fun u =>
          { u with weeklyAnalysisCache := none })
        ({ status := 200, success := true, error := none,
           analysisId := some docId, reflection := some reflectionData }, st3)

end MindMirror

namespace MindMirror

/-- The 24-hour cache TTL in ms (`CACHE_DURATION`). -/
def weeklyCacheDurationMs : Nat := 24 * 60 * 60 * 1000

/-- The aggregate-analysis timeout in ms (`GEMINI_TIMEOUT`). -/
def geminiTimeoutMs : Nat := 15000

/-- Settled outcome of
`Promise.race([analyzeWeeklyPatterns(reflections, userId), timeoutPromise])`:
`analyzeWeeklyPatterns` catches all its errors and resolves with a
success/failure value, so it never rejects — the only rejection the race
can settle with is the 15-second timer. -/
inductive RaceOutcome where
  | settledOk (d : WeeklyData)
  | settledErr (e : String)
  | timedOut
  deriving Repr, DecidableEq

/-- `analyzeWeeklyPatterns` (`src/server.js` lines 323-369) as a function of
the sample and the settled client call: a resolved success or failure
value in every case (it rejects in none). -/
def analyzeWeeklyPatterns (reflections : List Reflection)
    (svc : Except GeminiError WeeklyData) : GOutcome WeeklyData :=
  if reflections.length < 3 then
    .fail "Not enough reflections for weekly analysis"
  else
    match svc with
    | .ok d => .ok d
    | .error e => .fail e.message

/-- Response of `POST /analyze-weekly`. -/
structure WeeklyResp where
  status : Nat
  success : Bool
  hasEnoughData : Option Bool
  reflectionCount : Option Nat
  analysis : Option WeeklyData
  message : Option String
  error : Option String
  deriving Repr, DecidableEq

/-- Result of the weekly handler: response, store after the handler's
writes, and a provenance flag recording whether the response was served by
the cache fast path (the spec's `fromCache`). -/
structure WeeklyResult where
  resp : WeeklyResp
  store : Store
  fromCache : Bool
  deriving Repr, DecidableEq

/-- The ordered + limited Firestore query of `/analyze-weekly`:
`reflections` ordered by `createdAt` descending, limited to 7. -/
def fetchRecent (st : Store) (uid : String) : List (String × Reflection) :=
  (sortDescBy (fun p => p.2.createdAt)
    ((getUser st uid).getD UserDoc.empty).reflections).take 7

/-- The "SAVE TO CACHE" step of `/analyze-weekly` (lines 292-298):
merge-write the `weeklyAnalysisCache` field with the fresh aggregate. -/
def writeWeeklyCache (st : Store) (uid : String) (now count : Nat)
    (d : WeeklyData) : Store :=
  mergeUser st uid (fun u =>
    { u with weeklyAnalysisCache := some (CacheEntry.mk now count d) })

/-- The cache-miss path of `POST /analyze-weekly`
(`src/routes/analysis.js` lines 200-307): fetch the sample, report
insufficient data below 3 reflections, otherwise take the race outcome —
the synthetic fallback replaces it exactly when the race was lost to the
timer — then fail with 500 on a resolved failure value, or cache and
return the aggregate. -/
def weeklyFreshPath (st : Store) (uid : String) (now : Nat)
    (outcome : RaceOutcome) : WeeklyResult :=
  if (fetchRecent st uid).isEmpty then
    { resp := { status := 200, success := true, hasEnoughData := some false,
                reflectionCount := none, analysis := none,
                message := some "Not enough reflections", error := none },
      store := st, fromCache := false }
  else if (fetchRecent st uid).length < 3 then
    { resp := { status := 200, success := true, hasEnoughData := some false,
                reflectionCount := some (fetchRecent st uid).length,
                analysis := none, message := none, error := none },
      store := st, fromCache := false }
  else
    match
      (match outcome with
       | .settledOk d => GOutcome.ok d
       | .settledErr e => GOutcome.fail e
       | .timedOut =>
           GOutcome.ok (syntheticFallback ((fetchRecent st uid).map Prod.snd)))
    with
    | .fail e =>
        { resp := { status := 500, success := false, hasEnoughData := none,
                    reflectionCount := none, analysis := none,
                    message := none, error := some e },
          store := st, fromCache := false }
    | .ok d =>
        { resp := { status := 200, success := true, hasEnoughData := some true,
                    reflectionCount := some (fetchRecent st uid).length,
                    analysis := some d, message := none, error := none },
          store := writeWeeklyCache st uid now (fetchRecent st uid).length d,
          fromCache := false }

/-- `POST /analyze-weekly` (`src/routes/analysis.js` lines 168-315):
validation, cache fast path when `now - timestamp < 24h`, otherwise the
fresh computation above. -/
def analyzeWeekly (st : Store) (uid : String) (now : Nat)
    (outcome : RaceOutcome) : WeeklyResult :=
  if uid = "" then
    { resp := { status := 400, success := false, hasEnoughData := none,
                reflectionCount := none, analysis := none, message := none,
                error := some "User ID is required" },
      store := st, fromCache := false }
  else
    match (getUser st uid).bind (fun u => u.weeklyAnalysisCache) with
    | some c =>
        if now - c.timestamp < weeklyCacheDurationMs then
          { resp := { status := 200, success := true,
                      hasEnoughData := some true,
                      reflectionCount := some c.reflectionCount,
                      analysis := some c.analysis, message := none,
                      error := none },
            store := st, fromCache := true }
        else weeklyFreshPath st uid now outcome
    | none => weeklyFreshPath st uid now outcome

end MindMirror

namespace MindMirror

/-! ## Concrete fixtures

Small concrete stores used to evaluate the handlers at specific inputs. -/

/-- A completed reflection with the given date, creation time, primary
emotion and theme. -/
def mkRefl (d : String) (t : Nat) (pe th : Option String) : Reflection :=
  { date := d, transcript := some "entry", createdAt := t,
    analysisStatus := some "completed", inputType := some "voice",
    primaryEmotion := pe, secondaryEmotion := none, theme := th,
    emotionalIntensity := some "medium", dailyInsight := some "insight",
    analysisError := none }

/-- A user with three completed reflections and no cache entry. -/
def fixtureUser : UserDoc :=
  { UserDoc.empty with
    reflections :=
      [("2026-01-01_09-00-00", mkRefl "2026-01-01" 100 (some "joy") (some "work")),
       ("2026-01-02_09-00-00", mkRefl "2026-01-02" 200 (some "calm") (some "work")),
       ("2026-01-03_09-00-00", mkRefl "2026-01-03" 300 (some "joy") (some "self"))] }

/-- A store holding only `fixtureUser` under id `u1`. -/
def fixtureStore : Store := [("u1", fixtureUser)]

/-- A fixed aggregate payload for cache fixtures. -/
def fixtureData : WeeklyData :=
  { dominantEmotions := ["joy"], dominantThemes := ["work"],
    emotionalPattern := "steady", weeklyInsight := "a calm week",
    reflectiveQuestion := "why" }

/-- A cache entry written at t = 500 covering 3 reflections. -/
def fixtureEntry : CacheEntry :=
  { timestamp := 500, reflectionCount := 3, analysis := fixtureData }

/-- `fixtureStore` with a weekly cache entry present. -/
def fixtureCachedStore : Store :=
  [("u1", { fixtureUser with weeklyAnalysisCache := some fixtureEntry })]

/-- A concrete parsed analysis payload for background-task fixtures. -/
def fixtureFields : AnalysisFields :=
  { dailyInsight := "grew", primaryEmotion := "joy", secondaryEmotion := "calm",
    emotionalIntensity := "medium", theme := "growth" }

/-- A user with two reflections (below the minimum sample size). -/
def fixtureUserTwo : UserDoc :=
  { UserDoc.empty with
    reflections :=
      [("2026-01-01_09-00-00", mkRefl "2026-01-01" 100 (some "joy") (some "work")),
       ("2026-01-02_09-00-00", mkRefl "2026-01-02" 200 (some "calm") (some "self"))] }

/-- A store holding `fixtureUserTwo` under id `u2`. -/
def fixtureStoreTwo : Store := [("u2", fixtureUserTwo)]

end MindMirror

namespace MindMirror

/-! ## Helper lemmas -/

theorem alookup_aset_self {α : Type} (m : List (String × α)) (k : String) (v : α) :
    alookup (aset m k v) k = some v := by
  induction m with
  | nil => simp [aset, alookup]
  | cons hd tl ih =>
      obtain ⟨k', v'⟩ := hd
      by_cases h : k' = k
      · simp [aset, alookup, h]
      · simp [aset, alookup, h, ih]

theorem getUser_mergeUser_self (st : Store) (uid : String) (f : UserDoc → UserDoc) :
    getUser (mergeUser st uid f) uid =
      some (f ((getUser st uid).getD UserDoc.empty)) := by
  unfold mergeUser getUser
  exact alookup_aset_self ..

theorem getReflectionById_setReflection_self (st : Store) (uid docId : String)
    (r : Reflection) :
    getReflectionById (setReflection st uid docId r) uid docId = some r := by
  unfold getReflectionById setReflection
  rw [getUser_mergeUser_self]
  simp [alookup_aset_self]

theorem insDescBy_perm {α : Type} (key : α → Nat) (x : α) (l : List α) :
    (insDescBy key x l).Perm (x :: l) := by
  induction l with
  | nil => simp [insDescBy]
  | cons y ys ih =>
      unfold insDescBy
      by_cases h : key x < key y
      · rw [if_pos h]
        exact (ih.cons y).trans (List.Perm.swap x y ys)
      · rw [if_neg h]

theorem sortDescBy_perm {α : Type} (key : α → Nat) (l : List α) :
    (sortDescBy key l).Perm l := by
  induction l with
  | nil => simp [sortDescBy]
  | cons x xs ih =>
      unfold sortDescBy
      exact (insDescBy_perm key x _).trans (ih.cons x)

theorem insDescBy_pairwise {α : Type} (key : α → Nat) (x : α) (l : List α)
    (h : l.Pairwise (fun a b => key b ≤ key a)) :
    (insDescBy key x l).Pairwise (fun a b => key b ≤ key a) := by
  induction l with
  | nil => simp [insDescBy]
  | cons y ys ih =>
      rw [List.pairwise_cons] at h
      unfold insDescBy
      by_cases hxy : key x < key y
      · rw [if_pos hxy]
        rw [List.pairwise_cons]
        refine ⟨?_, ih h.2⟩
        intro b hb
        have hmem : b ∈ x :: ys := (insDescBy_perm key x ys).mem_iff.mp hb
        rcases List.mem_cons.mp hmem with hb' | hb'
        · exact hb' ▸ Nat.le_of_lt hxy
        · exact h.1 b hb'
      · rw [if_neg hxy]
        rw [List.pairwise_cons]
        constructor
        · intro b hb
          rcases List.mem_cons.mp hb with hb' | hb'
          · exact hb' ▸ Nat.le_of_not_lt hxy
          · exact Nat.le_trans (h.1 b hb') (Nat.le_of_not_lt hxy)
        · exact List.pairwise_cons.mpr h

theorem sortDescBy_pairwise {α : Type} (key : α → Nat) (l : List α) :
    (sortDescBy key l).Pairwise (fun a b => key b ≤ key a) := by
  induction l with
  | nil => simp [sortDescBy]
  | cons x xs ih => exact insDescBy_pairwise key x _ ih

theorem insDescBy_filter_key {α : Type} (key : α → Nat) (n : Nat) (x : α)
    (l : List α) :
    (insDescBy key x l).filter (fun a => key a == n) =
      (x :: l).filter (fun a => key a == n) := by
  induction l with
  | nil => simp [insDescBy]
  | cons y ys ih =>
      unfold insDescBy
      by_cases hxy : key x < key y
      · rw [if_pos hxy]
        simp only [List.filter_cons] at ih ⊢
        rw [ih]
        cases hpx : (key x == n) <;> cases hpy : (key y == n)
        · simp [hpx, hpy]
        · simp [hpx, hpy]
        · simp [hpx, hpy]
        · exfalso
          rw [beq_iff_eq] at hpx hpy
          omega
      · rw [if_neg hxy]

theorem sortDescBy_filter_key {α : Type} (key : α → Nat) (n : Nat) (l : List α) :
    (sortDescBy key l).filter (fun a => key a == n) =
      l.filter (fun a => key a == n) := by
  induction l with
  | nil => simp [sortDescBy]
  | cons x xs ih =>
      unfold sortDescBy
      rw [insDescBy_filter_key]
      simp only [List.filter_cons, ih]

end MindMirror

namespace MindMirror

theorem map_fst_bump (acc : List (String × Nat)) (e : String) :
    (bump acc e).map Prod.fst =
      if (acc.map Prod.fst).contains e then acc.map Prod.fst
      else acc.map Prod.fst ++ [e] := by
  induction acc with
  | nil => simp [bump]
  | cons hd tl ih =>
      obtain ⟨k, n⟩ := hd
      by_cases h : k = e
      · simp [bump, h]
      · have hek : (e == k) = false := by
          simp only [beq_eq_false_iff_ne, ne_eq]
          exact fun hh => h hh.symm
        unfold bump
        rw [if_neg h]
        simp only [List.map_cons, List.contains_cons, hek, Bool.false_or, ih]
        by_cases h2 : (tl.map Prod.fst).contains e = true
        · rw [if_pos h2, if_pos h2]
        · rw [if_neg h2, if_neg h2]
          simp

theorem map_fst_foldl_bump (l : List String) (acc : List (String × Nat)) :
    ((l.foldl bump acc).map Prod.fst) =
      l.foldl (fun a e => if a.contains e then a else a ++ [e])
        (acc.map Prod.fst) := by
  induction l generalizing acc with
  | nil => simp
  | cons a l' ih =>
      simp only [List.foldl_cons]
      rw [ih, map_fst_bump]

theorem countOcc_map_fst (l : List String) :
    (countOcc l).map Prod.fst = firstOccs l := by
  unfold countOcc firstOccs
  simpa using map_fst_foldl_bump l []

theorem alookup_bump (acc : List (String × Nat)) (a e : String) :
    alookup (bump acc a) e =
      if a = e then some ((alookup acc e).getD 0 + 1) else alookup acc e := by
  induction acc with
  | nil =>
      by_cases h : a = e <;> simp [bump, alookup, h]
  | cons hd tl ih =>
      obtain ⟨k, n⟩ := hd
      by_cases hka : k = a
      · subst hka
        by_cases hke : k = e
        · subst hke
          simp [bump, alookup]
        · simp [bump, alookup, hke]
      · by_cases hke : k = e
        · subst hke
          have hae : ¬ a = k := fun hh => hka hh.symm
          simp [bump, alookup, hka, hae]
        · simp [bump, alookup, hka, hke, ih]

theorem alookup_foldl_bump (l : List String) (acc : List (String × Nat))
    (e : String) :
    alookup (l.foldl bump acc) e =
      if l.count e = 0 then alookup acc e
      else some ((alookup acc e).getD 0 + l.count e) := by
  induction l generalizing acc with
  | nil => simp
  | cons a l' ih =>
      simp only [List.foldl_cons]
      rw [ih, alookup_bump]
      by_cases hae : a = e
      · subst hae
        have hc : (a :: l').count a = l'.count a + 1 := by
          simp [List.count_cons]
        rw [hc]
        by_cases h0 : l'.count a = 0
        · simp [h0]
        · have h1 : ¬ l'.count a + 1 = 0 := by omega
          simp only [h0, h1, if_false, eq_self_iff_true, if_true,
            Option.getD_some, Option.some.injEq]
          omega
      · have hea : ¬ e = a := fun hh => hae hh.symm
        have hc : (a :: l').count e = l'.count e := by
          simp [List.count_cons, hea]
        rw [hc]
        simp [hae]

theorem countOcc_alookup (l : List String) (e : String) :
    alookup (countOcc l) e =
      if l.count e = 0 then none else some (l.count e) := by
  unfold countOcc
  rw [alookup_foldl_bump]
  by_cases h : l.count e = 0
  · simp [h, alookup]
  · simp [h, alookup]

end MindMirror

namespace MindMirror

theorem weeklyFreshPath_fromCache (st : Store) (uid : String) (now : Nat)
    (o : RaceOutcome) : (weeklyFreshPath st uid now o).fromCache = false := by
  unfold weeklyFreshPath
  by_cases h1 : (fetchRecent st uid).isEmpty
  · simp [h1]
  · by_cases h2 : (fetchRecent st uid).length < 3
    · simp [h1, h2]
    · cases o <;> simp [h1, h2]

theorem analyzeWeekly_noFreshCache (st : Store) (uid : String) (now : Nat)
    (o : RaceOutcome) (h1 : ¬ uid = "")
    (h2 : ∀ c, (getUser st uid).bind (fun u => u.weeklyAnalysisCache) = some c →
        ¬ (now - c.timestamp < weeklyCacheDurationMs)) :
    analyzeWeekly st uid now o = weeklyFreshPath st uid now o := by
  unfold analyzeWeekly
  rw [if_neg h1]
  cases hc : (getUser st uid).bind (fun u => u.weeklyAnalysisCache) with
  | none => rfl
  | some c => exact if_neg (h2 c hc)

theorem firstIdx_append_cons (c : Char) (p rest : List Char) (hp : c ∉ p) :
    firstIdx c (p ++ c :: rest) = some p.length := by
  induction p with
  | nil => simp [firstIdx]
  | cons x xs ih =>
      have hx : ¬ x = c := fun h => hp (h ▸ List.mem_cons_self x xs)
      have hxs : c ∉ xs := fun h => hp (List.mem_cons_of_mem x h)
      show firstIdx c (x :: (xs ++ c :: rest)) = some (xs.length + 1)
      unfold firstIdx
      rw [if_neg hx, ih hxs]
      rfl

theorem braceSlice_first_last (p m q : List Char) (hp : '{' ∉ p)
    (hq : '}' ∉ q) :
    braceSlice (p ++ '{' :: (m ++ '}' :: q)) = '{' :: (m ++ ['}']) := by
  unfold braceSlice
  have hf : firstIdx '{' (p ++ '{' :: (m ++ '}' :: q)) = some p.length :=
    firstIdx_append_cons _ _ _ hp
  have hrev : (p ++ '{' :: (m ++ '}' :: q)).reverse
      = q.reverse ++ '}' :: (m.reverse ++ '{' :: p.reverse) := by
    simp
  have hqrev : '}' ∉ q.reverse := by simpa using hq
  have hfr : firstIdx '}' ((p ++ '{' :: (m ++ '}' :: q)).reverse)
      = some q.reverse.length := by
    rw [hrev]
    exact firstIdx_append_cons _ _ _ hqrev
  have hlen : (p ++ '{' :: (m ++ '}' :: q)).length
      = p.length + m.length + q.length + 2 := by
    simp
    omega
  have hl : lastIdx '}' (p ++ '{' :: (m ++ '}' :: q))
      = some (p.length + m.length + 1) := by
    unfold lastIdx
    rw [hfr]
    show some ((p ++ '{' :: (m ++ '}' :: q)).length - 1 - q.reverse.length)
        = some (p.length + m.length + 1)
    rw [hlen, List.length_reverse]
    congr 1
    omega
  rw [hf, hl]
  have hcond : p.length < p.length + m.length + 1 := by omega
  show (if p.length < p.length + m.length + 1 then
      List.take (p.length + m.length + 1 + 1 - p.length)
        (List.drop p.length (p ++ '{' :: (m ++ '}' :: q)))
    else p ++ '{' :: (m ++ '}' :: q)) = '{' :: (m ++ ['}'])
  rw [if_pos hcond]
  have hdrop : List.drop p.length (p ++ '{' :: (m ++ '}' :: q))
      = '{' :: (m ++ '}' :: q) := List.drop_left ..
  rw [hdrop]
  have harith : p.length + m.length + 1 + 1 - p.length = m.length + 2 := by
    omega
  rw [harith]
  have htake : (m ++ '}' :: q).take (m.length + 1) = m ++ ['}'] := by
    have h := @List.take_append Char m ('}' :: q) 1
    simpa using h
  calc List.take (m.length + 2) ('{' :: (m ++ '}' :: q))
      = '{' :: (m ++ '}' :: q).take (m.length + 1) := rfl
    _ = '{' :: (m ++ ['}']) := by rw [htake]

end MindMirror

namespace MindMirror

/-! ## Claim theorems -/

/-- C5: For every raw model response text, the analysis client's extraction
strips fenced/code-block markers, slices from the first `{` to the last `}`
of the remaining text, and parses that substring; in particular the fenced
input with literal backtick fences around `{"a":1}` yields the parsed
object `{a:1}`. -/
theorem C5_extraction_slices_and_parses :
    (callGemini "```json\n\x7b\"a\":1\x7d\n```" = .ok (Json.jobj [("a", Json.jnum "1")]))
    ∧ (∀ text : String,
        callGemini text =
          match parseJson (String.mk (extractJsonStr text)) with
          | .ok j => .ok j
          | .error e => .error (classifyJErr e))
    ∧ (∀ text : String, extractJsonStr text = braceSlice (stripFences text))
    ∧ (∀ p m q : List Char, '{' ∉ p → '}' ∉ q →
        braceSlice (p ++ '{' :: (m ++ '}' :: q)) = '{' :: (m ++ ['}'])) :=
  ⟨rfl, fun _ => rfl, fun _ => rfl, braceSlice_first_last⟩

theorem C5_extraction_witness :
    braceSlice ("xx".toList ++ '{' :: ("\"a\":1".toList ++ '}' :: " y".toList))
      = '{' :: ("\"a\":1".toList ++ ['}']) :=
  C5_extraction_slices_and_parses.2.2.2 "xx".toList "\"a\":1".toList " y".toList
    (by decide) (by decide)

/-- C6: Parse failures are classified — failures whose kind indicates
premature truncation (unexpected end of input or an unterminated string)
yield `IncompleteResponse`, every other parse failure yields
`MalformedResponse`; the truncated text `{"a":1` fails with
`IncompleteResponse`; and the client performs no retries, consuming exactly
one response from the service stream. -/
theorem C6_parse_failure_classification :
    (callGemini "\x7b\"a\":1" = .error GeminiError.incompleteResponse)
    ∧ (callGemini "neither json nor braces" = .error GeminiError.malformedResponse)
    ∧ (∀ (text : String) (e : JErr),
        parseJson (String.mk (extractJsonStr text)) = .error e →
        callGemini text = .error (classifyJErr e))
    ∧ (∀ e : JErr,
        classifyJErr e = GeminiError.incompleteResponse ↔ e.isTruncation = true)
    ∧ JErr.unexpectedEnd.isTruncation = true
    ∧ JErr.unterminatedStr.isTruncation = true
    ∧ (∀ c : Char, (JErr.unexpectedToken c).isTruncation = false)
    ∧ (∀ (r : String) (rest : List String),
        callGeminiStream (r :: rest) = (callGemini r, rest)) := by
  refine ⟨rfl, rfl, ?_, ?_, rfl, rfl, fun _ => rfl, fun _ _ => rfl⟩
  · intro text e h
    unfold callGemini
    rw [h]
  · intro e
    cases e <;> simp [classifyJErr, JErr.isTruncation]

theorem C6_classification_witness :
    callGemini "\x7b\"a\":1" = .error (classifyJErr JErr.unexpectedEnd) :=
  C6_parse_failure_classification.2.2.1 "\x7b\"a\":1" JErr.unexpectedEnd rfl

/-- C8: The usage recorder is fire-and-forget: a store failure is caught
and the caller's store is untouched, no error escapes; `callGemini` with a
user identity runs the recorder update before the external call (event
trace order), and the analysis result never depends on whether the
recorder failed. -/
theorem C8_usage_recorder_isolated (st : Store)
    (uid operation details today : String) (now : Nat) (storeFails : Bool)
    (text : String) :
    (incrementAPICount st uid operation details today now true = st)
    ∧ ((callGeminiFull st (some uid) operation details today now storeFails text).1
        = callGemini text)
    ∧ ((callGeminiFull st (some uid) operation details today now storeFails text).2.2
        = [ClientEvent.recorderUpdate, ClientEvent.externalCall])
    ∧ ((callGeminiFull st (some uid) operation details today now storeFails text).2.1
        = incrementAPICount st uid operation details today now storeFails) := by
  refine ⟨?_, rfl, rfl, rfl⟩
  unfold incrementAPICount incrementAPICountBody
  by_cases h : uid = "" <;> simp [h]

end MindMirror

namespace MindMirror

theorem getReflectionById_clearCache (st : Store) (uid docId : String) :
    getReflectionById
        (mergeUser st uid (fun u => { u with weeklyAnalysisCache := none }))
        uid docId
      = getReflectionById st uid docId := by
  unfold getReflectionById
  rw [getUser_mergeUser_self]
  cases h : getUser st uid with
  | none => simp [h, UserDoc.empty, alookup]
  | some u => simp [h]

/-- C7: `POST /save-transcript` validates that userId and transcript are
non-empty, failing with a 400 validation error and writing nothing
otherwise; on valid input it responds synchronously (without waiting for
analysis) with a reflection whose status is `pending` and whose input
method is `voice`, and that reflection is immediately retrievable by its
id. -/
theorem C7_save_transcript (st : Store)
    (userId userName userEmail date transcript : String) (now : Nat)
    (nowDate timeStr : String) :
    (userId = "" ∨ transcript = "" →
      saveTranscript st userId userName userEmail date transcript now nowDate timeStr =
        ({ status := 400, success := false,
           error := some "userId and transcript are required",
           reflectionId := none, reflection := none }, st))
    ∧ (¬ userId = "" → ¬ transcript = "" →
        ∃ r : Reflection,
          (saveTranscript st userId userName userEmail date transcript now nowDate timeStr).1
            = { status := 200, success := true, error := none,
                reflectionId := some (jsOr date nowDate ++ "_" ++ timeStr),
                reflection := some r }
          ∧ r.analysisStatus = some "pending"
          ∧ r.inputType = some "voice"
          ∧ getReflectionById
              (saveTranscript st userId userName userEmail date transcript now nowDate timeStr).2
              userId (jsOr date nowDate ++ "_" ++ timeStr) = some r) := by
  constructor
  · intro h
    unfold saveTranscript
    rw [if_pos h]
  · intro h1 h2
    have hcond : ¬ (userId = "" ∨ transcript = "") := by
      simp [h1, h2]
    refine ⟨{ date := jsOr date nowDate,
              transcript := some (String.mk (trimL transcript.toList)),
              createdAt := now, analysisStatus := some "pending",
              inputType := some "voice", primaryEmotion := none,
              secondaryEmotion := none, theme := none,
              emotionalIntensity := none, dailyInsight := none,
              analysisError := none }, ?_, rfl, rfl, ?_⟩
    · unfold saveTranscript
      rw [if_neg hcond]
    · unfold saveTranscript
      rw [if_neg hcond]
      exact getReflectionById_setReflection_self ..

theorem C7_save_transcript_witness :
    ∃ r : Reflection,
      (saveTranscript fixtureStore "u1" "Al" "al@x" "" "had a hard day" 400
          "2026-01-04" "11-30-45").1
        = { status := 200, success := true, error := none,
            reflectionId := some (jsOr "" "2026-01-04" ++ "_" ++ "11-30-45"),
            reflection := some r }
      ∧ r.analysisStatus = some "pending"
      ∧ r.inputType = some "voice"
      ∧ getReflectionById
          (saveTranscript fixtureStore "u1" "Al" "al@x" "" "had a hard day" 400
            "2026-01-04" "11-30-45").2
          "u1" (jsOr "" "2026-01-04" ++ "_" ++ "11-30-45") = some r :=
  (C7_save_transcript fixtureStore "u1" "Al" "al@x" "" "had a hard day" 400
    "2026-01-04" "11-30-45").2 (by decide) (by decide)

/-- C10: A reflection written by the synchronous `/analyze-daily` path has
the populated analysis fields but no `analysisStatus` field at all — unlike
`/save-transcript`, whose reflection carries `analysisStatus = "pending"` —
so readers branching on `analysisStatus` never see it as `completed`. -/
theorem C10_daily_reflection_has_no_status (st : Store)
    (userId userName userEmail date textInput : String) (d : DailyData)
    (now : Nat) (nowDate timeStr : String)
    (h1 : ¬ userId = "") (h2 : ¬ textInput = "") :
    ∃ r : Reflection,
      (analyzeDaily st userId userName userEmail date textInput
          (GOutcome.ok d) now nowDate timeStr).1.reflection = some r
      ∧ r.analysisStatus = none
      ∧ r.primaryEmotion = some d.primaryEmotion
      ∧ r.secondaryEmotion = some d.secondaryEmotion
      ∧ r.theme = some d.theme
      ∧ r.emotionalIntensity = some d.emotionalIntensity
      ∧ r.dailyInsight = some d.dailyInsight
      ∧ r.inputType = some "text"
      ∧ ¬ r.analysisStatus = some "completed"
      ∧ getReflectionById
          (analyzeDaily st userId userName userEmail date textInput
            (GOutcome.ok d) now nowDate timeStr).2
          userId (jsOr date nowDate ++ "_" ++ timeStr) = some r
      ∧ (∀ (st2 : Store) (tr : String), ¬ tr = "" →
          ((saveTranscript st2 userId userName userEmail date tr now nowDate
              timeStr).1.reflection).map Reflection.analysisStatus
            = some (some "pending")) := by
  have hcond : ¬ (userId = "" ∨ textInput = "") := by
    simp [h1, h2]
  refine ⟨{ date := jsOr date nowDate, transcript := some d.transcript,
            createdAt := now, analysisStatus := none,
            inputType := some "text",
            primaryEmotion := some d.primaryEmotion,
            secondaryEmotion := some d.secondaryEmotion,
            theme := some d.theme,
            emotionalIntensity := some d.emotionalIntensity,
            dailyInsight := some d.dailyInsight, analysisError := none },
    ?_, rfl, rfl, rfl, rfl, rfl, rfl, rfl, by simp, ?_, ?_⟩
  · unfold analyzeDaily
    rw [if_neg hcond]
  · unfold analyzeDaily
    rw [if_neg hcond]
    show getReflectionById
        (mergeUser _ userId (fun u => { u with weeklyAnalysisCache := none }))
        userId _ = _
    rw [getReflectionById_clearCache]
    exact getReflectionById_setReflection_self ..
  · intro st2 tr htr
    have hcond2 : ¬ (userId = "" ∨ tr = "") := by
      simp [h1, htr]
    unfold saveTranscript
    rw [if_neg hcond2]
    rfl

theorem C10_daily_witness :
    ∃ r : Reflection,
      (analyzeDaily fixtureStore "u1" "Al" "al@x" "" "felt fine"
          (GOutcome.ok { transcript := "felt fine", dailyInsight := "ok",
                         primaryEmotion := "calm", secondaryEmotion := "hope",
                         emotionalIntensity := "low", theme := "self" })
          400 "2026-01-04" "11-30-45").1.reflection = some r
      ∧ r.analysisStatus = none
      ∧ r.primaryEmotion = some "calm"
      ∧ r.secondaryEmotion = some "hope"
      ∧ r.theme = some "self"
      ∧ r.emotionalIntensity = some "low"
      ∧ r.dailyInsight = some "ok"
      ∧ r.inputType = some "text"
      ∧ ¬ r.analysisStatus = some "completed"
      ∧ getReflectionById
          (analyzeDaily fixtureStore "u1" "Al" "al@x" "" "felt fine"
            (GOutcome.ok { transcript := "felt fine", dailyInsight := "ok",
                           primaryEmotion := "calm", secondaryEmotion := "hope",
                           emotionalIntensity := "low", theme := "self" })
            400 "2026-01-04" "11-30-45").2
          "u1" (jsOr "" "2026-01-04" ++ "_" ++ "11-30-45") = some r
      ∧ (∀ (st2 : Store) (tr : String), ¬ tr = "" →
          ((saveTranscript st2 "u1" "Al" "al@x" "" tr 400 "2026-01-04"
              "11-30-45").1.reflection).map Reflection.analysisStatus
            = some (some "pending")) :=
  C10_daily_reflection_has_no_status fixtureStore "u1" "Al" "al@x" ""
    "felt fine"
    { transcript := "felt fine", dailyInsight := "ok", primaryEmotion := "calm",
      secondaryEmotion := "hope", emotionalIntensity := "low", theme := "self" }
    400 "2026-01-04" "11-30-45" (by decide) (by decide)

end MindMirror

namespace MindMirror

/-- C2: When a reflection's background analysis completes successfully
(the document update sets status `completed` and the task resolves with
`success = true`), the user's weekly cache entry is cleared immediately,
so a subsequent weekly request for that user is never served from the
cache, regardless of any prior entry's TTL. -/
theorem C2_completion_invalidates_cache (st : Store) (uid docId : String)
    (d : AnalysisFields) (r : Reflection)
    (hdoc : getReflectionById st uid docId = some r) :
    ((analyzeTranscriptBackground st uid docId (Except.ok d)).2 = true)
    ∧ ((getReflectionById (saveTranscriptBackground st uid docId (Except.ok d))
          uid docId).map Reflection.analysisStatus = some (some "completed"))
    ∧ ((getUser (saveTranscriptBackground st uid docId (Except.ok d)) uid).bind
        (fun u => u.weeklyAnalysisCache) = none)
    ∧ (∀ (now : Nat) (o : RaceOutcome),
        (analyzeWeekly (saveTranscriptBackground st uid docId (Except.ok d))
            uid now o).fromCache = false) := by
  set newR : Reflection :=
    { r with dailyInsight := some d.dailyInsight,
             primaryEmotion := some d.primaryEmotion,
             secondaryEmotion := some d.secondaryEmotion,
             emotionalIntensity := some d.emotionalIntensity,
             theme := some d.theme,
             analysisStatus := some "completed" } with hnewR
  have hb : analyzeTranscriptBackground st uid docId (Except.ok d) =
      (setReflection st uid docId newR, true) := by
    unfold analyzeTranscriptBackground
    rw [hdoc]
  have hs : saveTranscriptBackground st uid docId (Except.ok d) =
      mergeUser (setReflection st uid docId newR) uid
        (fun u => { u with weeklyAnalysisCache := none }) := by
    unfold saveTranscriptBackground
    rw [hb]
    rfl
  have hcache : (getUser (saveTranscriptBackground st uid docId (Except.ok d))
      uid).bind (fun u => u.weeklyAnalysisCache) = none := by
    rw [hs, getUser_mergeUser_self]
    rfl
  refine ⟨by rw [hb], ?_, hcache, ?_⟩
  · rw [hs, getReflectionById_clearCache, getReflectionById_setReflection_self]
    rfl
  · intro now o
    by_cases hu : uid = ""
    · unfold analyzeWeekly
      rw [if_pos hu]
    · rw [analyzeWeekly_noFreshCache _ _ _ _ hu
        (fun c hc => by rw [hcache] at hc; exact Option.noConfusion hc)]
      exact weeklyFreshPath_fromCache ..

theorem C2_invalidation_witness :
    (getUser (saveTranscriptBackground fixtureStore "u1" "2026-01-01_09-00-00"
        (Except.ok fixtureFields)) "u1").bind
      (fun u => u.weeklyAnalysisCache) = none :=
  (C2_completion_invalidates_cache fixtureStore "u1" "2026-01-01_09-00-00"
    fixtureFields (mkRefl "2026-01-01" 100 (some "joy") (some "work"))
    (by decide)).2.2.1

end MindMirror

namespace MindMirror

/-- C3: When a weekly cache entry exists with `now - timestamp < 24h`, the
cached payload (same reflection count and analysis) is served from the
cache fast path, the store is untouched, and no aggregate analysis call is
made (the result does not depend on the race outcome at all); when the
entry's age has reached the TTL, the request is not served from the cache
and recomputes via the fresh path. -/
theorem C3_cache_fast_path (st : Store) (uid : String) (now : Nat)
    (outcome : RaceOutcome) (c : CacheEntry) (h1 : ¬ uid = "")
    (hc : (getUser st uid).bind (fun u => u.weeklyAnalysisCache) = some c) :
    (now - c.timestamp < weeklyCacheDurationMs →
      analyzeWeekly st uid now outcome =
        { resp := { status := 200, success := true, hasEnoughData := some true,
                    reflectionCount := some c.reflectionCount,
                    analysis := some c.analysis, message := none,
                    error := none },
          store := st, fromCache := true }
      ∧ ∀ o2 : RaceOutcome,
          analyzeWeekly st uid now o2 = analyzeWeekly st uid now outcome)
    ∧ (¬ now - c.timestamp < weeklyCacheDurationMs →
        (analyzeWeekly st uid now outcome).fromCache = false
        ∧ analyzeWeekly st uid now outcome = weeklyFreshPath st uid now outcome) := by
  have hhit : ∀ o2 : RaceOutcome, now - c.timestamp < weeklyCacheDurationMs →
      analyzeWeekly st uid now o2 =
        { resp := { status := 200, success := true, hasEnoughData := some true,
                    reflectionCount := some c.reflectionCount,
                    analysis := some c.analysis, message := none,
                    error := none },
          store := st, fromCache := true } := by
    intro o2 hlt
    unfold analyzeWeekly
    rw [if_neg h1, hc]
    exact if_pos hlt
  constructor
  · intro hlt
    refine ⟨hhit outcome hlt, fun o2 => ?_⟩
    rw [hhit o2 hlt, hhit outcome hlt]
  · intro hge
    have heq : analyzeWeekly st uid now outcome = weeklyFreshPath st uid now outcome :=
      analyzeWeekly_noFreshCache st uid now outcome h1
        (fun c' hc' => by rw [hc] at hc'; cases hc'; exact hge)
    exact ⟨heq ▸ weeklyFreshPath_fromCache st uid now outcome, heq⟩

theorem C3_cache_fast_path_witness :
    analyzeWeekly fixtureCachedStore "u1" 1000 RaceOutcome.timedOut =
      { resp := { status := 200, success := true, hasEnoughData := some true,
                  reflectionCount := some fixtureEntry.reflectionCount,
                  analysis := some fixtureEntry.analysis, message := none,
                  error := none },
        store := fixtureCachedStore, fromCache := true } :=
  ((C3_cache_fast_path fixtureCachedStore "u1" 1000 RaceOutcome.timedOut
      fixtureEntry (by decide) rfl).1 (by decide)).1

end MindMirror

namespace MindMirror

/-- C4: With no fresh cache: zero reflections reports insufficient data;
one or two reflections reports insufficient data together with the count;
with three or more the aggregate analysis proceeds (the response is never
the insufficient-data one), on the sample `fetchRecent st uid` — at most
the 7 most recent reflections: no more than 7, ordered by creation time
descending, all drawn from the user's collection, and each at least as
recent as every reflection left out of the sample. -/
theorem C4_minimum_sample (st : Store) (uid : String) (now : Nat)
    (outcome : RaceOutcome) (h1 : ¬ uid = "")
    (h2 : ∀ c, (getUser st uid).bind (fun u => u.weeklyAnalysisCache) = some c →
        ¬ (now - c.timestamp < weeklyCacheDurationMs)) :
    (((getUser st uid).getD UserDoc.empty).reflections.length = 0 →
      (analyzeWeekly st uid now outcome).resp =
        { status := 200, success := true, hasEnoughData := some false,
          reflectionCount := none, analysis := none,
          message := some "Not enough reflections", error := none })
    ∧ (0 < ((getUser st uid).getD UserDoc.empty).reflections.length →
        ((getUser st uid).getD UserDoc.empty).reflections.length < 3 →
        (analyzeWeekly st uid now outcome).resp =
          { status := 200, success := true, hasEnoughData := some false,
            reflectionCount :=
              some ((getUser st uid).getD UserDoc.empty).reflections.length,
            analysis := none, message := none, error := none })
    ∧ (3 ≤ ((getUser st uid).getD UserDoc.empty).reflections.length →
        ¬ (analyzeWeekly st uid now outcome).resp.hasEnoughData = some false)
    ∧ fetchRecent st uid =
        (sortDescBy (fun p => p.2.createdAt)
          ((getUser st uid).getD UserDoc.empty).reflections).take 7
    ∧ (fetchRecent st uid).length
        = min 7 ((getUser st uid).getD UserDoc.empty).reflections.length
    ∧ (fetchRecent st uid).Pairwise (fun a b => b.2.createdAt ≤ a.2.createdAt)
    ∧ (∀ x ∈ fetchRecent st uid,
        x ∈ ((getUser st uid).getD UserDoc.empty).reflections)
    ∧ (∀ y ∈ (sortDescBy (fun p => p.2.createdAt)
          ((getUser st uid).getD UserDoc.empty).reflections).drop 7,
        ∀ x ∈ fetchRecent st uid, y.2.createdAt ≤ x.2.createdAt) := by
  have hw : analyzeWeekly st uid now outcome = weeklyFreshPath st uid now outcome :=
    analyzeWeekly_noFreshCache st uid now outcome h1 h2
  have hlen : (fetchRecent st uid).length
      = min 7 ((getUser st uid).getD UserDoc.empty).reflections.length := by
    unfold fetchRecent
    rw [List.length_take,
      (sortDescBy_perm (fun p : String × Reflection => p.2.createdAt) _).length_eq]
  have hsorted := sortDescBy_pairwise
    (fun p : String × Reflection => p.2.createdAt)
    ((getUser st uid).getD UserDoc.empty).reflections
  refine ⟨?_, ?_, ?_, rfl, hlen, ?_, ?_, ?_⟩
  · intro h0
    have hs : (fetchRecent st uid).isEmpty = true := by
      refine List.isEmpty_iff_length_eq_zero.mpr ?_
      omega
    rw [hw]
    unfold weeklyFreshPath
    rw [if_pos hs]
  · intro hpos ht3
    have hs : ¬ (fetchRecent st uid).isEmpty = true := by
      intro hh
      have := List.isEmpty_iff_length_eq_zero.mp hh
      omega
    have hlt : (fetchRecent st uid).length < 3 := by omega
    have hexact : (fetchRecent st uid).length
        = ((getUser st uid).getD UserDoc.empty).reflections.length := by omega
    rw [hw]
    unfold weeklyFreshPath
    rw [if_neg hs, if_pos hlt, hexact]
  · intro h3
    have hs : ¬ (fetchRecent st uid).isEmpty = true := by
      intro hh
      have := List.isEmpty_iff_length_eq_zero.mp hh
      omega
    have hge : ¬ (fetchRecent st uid).length < 3 := by omega
    rw [hw]
    unfold weeklyFreshPath
    rw [if_neg hs, if_neg hge]
    cases outcome <;> simp
  · unfold fetchRecent
    exact (sortDescBy_pairwise _ _).sublist (List.take_sublist _ _)
  · intro x hx
    have hx2 : x ∈ sortDescBy (fun p : String × Reflection => p.2.createdAt)
        ((getUser st uid).getD UserDoc.empty).reflections :=
      (List.take_sublist _ _).mem hx
    exact (sortDescBy_perm _ _).mem_iff.mp hx2
  · intro y hy x hx
    have hsplit := List.take_append_drop 7
      (sortDescBy (fun p : String × Reflection => p.2.createdAt)
        ((getUser st uid).getD UserDoc.empty).reflections)
    have hpw := hsorted
    rw [← hsplit] at hpw
    have := (List.pairwise_append.mp hpw).2.2
    exact this x hx y hy

end MindMirror

namespace MindMirror

theorem C4_minimum_sample_witness :
    (analyzeWeekly fixtureStoreTwo "u2" 1000 RaceOutcome.timedOut).resp =
      { status := 200, success := true, hasEnoughData := some false,
        reflectionCount :=
          some ((getUser fixtureStoreTwo "u2").getD UserDoc.empty).reflections.length,
        analysis := none, message := none, error := none } :=
  (C4_minimum_sample fixtureStoreTwo "u2" 1000 RaceOutcome.timedOut (by decide)
    (fun _ hc => nomatch hc)).2.1 (by decide) (by decide)

end MindMirror

namespace MindMirror

theorem if_isEmpty_ne_nil (l d : List String) (hd : d ≠ []) :
    (if l.isEmpty then d else l) ≠ [] := by
  cases hl : l.isEmpty with
  | true => simpa [hl] using hd
  | false =>
      simp only [hl, Bool.false_eq_true, if_false]
      intro hh
      rw [hh] at hl
      simp at hl

/-- C1 counterexample: with three reflections and no cache, an analysis
call that settles with a failure value within the timeout does NOT trigger
the synthetic fallback — the route returns a 500 error response with no
aggregate, so the claim "on timeout or any analysis failure the fallback
result is used and a usable aggregate is always returned" is false on the
code. -/
theorem C1_failure_no_fallback_counterexample :
    (analyzeWeekly fixtureStore "u1" 1000
        (RaceOutcome.settledErr "Invalid AI response format - could not parse JSON")).resp
      = { status := 500, success := false, hasEnoughData := none,
          reflectionCount := none, analysis := none, message := none,
          error := some "Invalid AI response format - could not parse JSON" }
    ∧ (analyzeWeekly fixtureStore "u1" 1000
        (RaceOutcome.settledErr "Invalid AI response format - could not parse JSON")).resp.analysis
      = none := by
  constructor <;> decide

/-- C1 (amended): with at least 3 fetched reflections and no fresh cache,
losing the race to the 15-second timer (the only rejection the race can
settle with, since `analyzeWeeklyPatterns` resolves failures instead of
rejecting) always yields the synthetic fallback aggregate — a successful
200 response carrying a usable (non-degenerate) aggregate, which is also
written to the cache; an analysis call that settles with a failure value
within the timeout instead produces a 500 error response with no
aggregate. -/
theorem C1_timeout_uses_fallback (st : Store) (uid : String) (now : Nat)
    (h1 : ¬ uid = "")
    (h2 : ∀ c, (getUser st uid).bind (fun u => u.weeklyAnalysisCache) = some c →
        ¬ (now - c.timestamp < weeklyCacheDurationMs))
    (h3 : 3 ≤ (fetchRecent st uid).length) :
    (analyzeWeekly st uid now RaceOutcome.timedOut).resp
      = { status := 200, success := true, hasEnoughData := some true,
          reflectionCount := some (fetchRecent st uid).length,
          analysis :=
            some (syntheticFallback ((fetchRecent st uid).map Prod.snd)),
          message := none, error := none }
    ∧ (analyzeWeekly st uid now RaceOutcome.timedOut).store
      = writeWeeklyCache st uid now (fetchRecent st uid).length
          (syntheticFallback ((fetchRecent st uid).map Prod.snd))
    ∧ (∀ r : List Reflection, (syntheticFallback r).dominantEmotions ≠ []
        ∧ (syntheticFallback r).dominantThemes ≠ [])
    ∧ (∀ e : String,
        (analyzeWeekly st uid now (RaceOutcome.settledErr e)).resp
          = { status := 500, success := false, hasEnoughData := none,
              reflectionCount := none, analysis := none, message := none,
              error := some e }) := by
  have hs : ¬ (fetchRecent st uid).isEmpty = true := by
    intro hh
    have := List.isEmpty_iff_length_eq_zero.mp hh
    omega
  have hge : ¬ (fetchRecent st uid).length < 3 := by omega
  have hto : analyzeWeekly st uid now RaceOutcome.timedOut
      = weeklyFreshPath st uid now RaceOutcome.timedOut :=
    analyzeWeekly_noFreshCache st uid now RaceOutcome.timedOut h1 h2
  refine ⟨?_, ?_, ?_, ?_⟩
  · rw [hto]
    unfold weeklyFreshPath
    rw [if_neg hs, if_neg hge]
  · rw [hto]
    unfold weeklyFreshPath
    rw [if_neg hs, if_neg hge]
  · intro r
    exact ⟨if_isEmpty_ne_nil _ _ (by decide), if_isEmpty_ne_nil _ _ (by decide)⟩
  · intro e
    rw [analyzeWeekly_noFreshCache st uid now _ h1 h2]
    unfold weeklyFreshPath
    rw [if_neg hs, if_neg hge]

theorem C1_timeout_fallback_witness :
    (analyzeWeekly fixtureStore "u1" 1000 RaceOutcome.timedOut).resp
      = { status := 200, success := true, hasEnoughData := some true,
          reflectionCount := some (fetchRecent fixtureStore "u1").length,
          analysis :=
            some (syntheticFallback ((fetchRecent fixtureStore "u1").map Prod.snd)),
          message := none, error := none } :=
  (C1_timeout_uses_fallback fixtureStore "u1" 1000 (by decide)
    (fun _ hc => nomatch hc) (by decide)).1

end MindMirror

namespace MindMirror

/-- C9: The synthetic fallback generator is a total, deterministic pure
function of the sample (it is a Lean function into `WeeklyData`, so it
cannot throw): it takes each reflection's primary emotion (defaulting to
"neutral" when absent or empty) and theme (defaulting to "self"), counts
occurrences of each distinct value with keys in first-encounter order,
selects the top 2 by a stable descending sort on the counts — the sort is
a permutation, descending in count, and preserves the relative order of
entries with equal counts, so ties are broken by first-encounter order —
and emits a fixed-shape aggregate whose insight interpolates the sample
count and the joined top themes, falling back to "personal growth" when no
themes were joined. -/
theorem C9_fallback_deterministic (sample : List Reflection) :
    (syntheticFallback sample =
      { dominantEmotions :=
          if (((sortDescBy Prod.snd (countOcc ((sample.map
              (fun r => jsOrOpt r.primaryEmotion "neutral")).filter
              (fun e => e ≠ "")))).take 2).map Prod.fst).isEmpty
          then ["neutral"]
          else ((sortDescBy Prod.snd (countOcc ((sample.map
              (fun r => jsOrOpt r.primaryEmotion "neutral")).filter
              (fun e => e ≠ "")))).take 2).map Prod.fst,
        dominantThemes :=
          if (((sortDescBy Prod.snd (countOcc ((sample.map
              (fun r => jsOrOpt r.theme "self")).filter
              (fun t => t ≠ "")))).take 2).map Prod.fst).isEmpty
          then ["self"]
          else ((sortDescBy Prod.snd (countOcc ((sample.map
              (fun r => jsOrOpt r.theme "self")).filter
              (fun t => t ≠ "")))).take 2).map Prod.fst,
        emotionalPattern :=
          "Your reflections show a consistent pattern of self-awareness.",
        weeklyInsight :=
          "This week you\u0027ve reflected " ++ toString sample.length ++
            " times, exploring themes of " ++
            jsOr (String.intercalate " and " (((sortDescBy Prod.snd (countOcc
              ((sample.map (fun r => jsOrOpt r.theme "self")).filter
                (fun t => t ≠ "")))).take 2).map Prod.fst)) "personal growth"
            ++ ".",
        reflectiveQuestion :=
          "What would you like to explore more deeply in your next reflection?" })
    ∧ (∀ l : List String, (countOcc l).map Prod.fst = firstOccs l)
    ∧ (∀ (l : List String) (e : String),
        alookup (countOcc l) e =
          if l.count e = 0 then none else some (l.count e))
    ∧ (∀ l : List (String × Nat), (sortDescBy Prod.snd l).Perm l)
    ∧ (∀ l : List (String × Nat),
        (sortDescBy Prod.snd l).Pairwise (fun a b => b.2 ≤ a.2))
    ∧ (∀ (l : List (String × Nat)) (n : Nat),
        (sortDescBy Prod.snd l).filter (fun a => a.2 == n)
          = l.filter (fun a => a.2 == n)) :=
  ⟨rfl, countOcc_map_fst, countOcc_alookup,
    fun l => sortDescBy_perm Prod.snd l,
    fun l => sortDescBy_pairwise Prod.snd l,
    fun l n => sortDescBy_filter_key Prod.snd n l⟩

end MindMirror
